import Mathlib

/-!
Shallow embedding of the Purple-Trader signal/risk core
(`core/engine.py`, `core/risk.py`, `core/guards.py`, `core/signals.py`,
`core/backtester.py`) and proofs about it.

Python floats are modelled by `ℚ`; a pandas column value that is NaN
while the indicator window warms up is modelled by `Option ℚ` (`none`);
a raised `ValueError` is modelled by `Except.error`; a `KeyError`-prone
dict lookup by `Option`.
-/

namespace PurpleTrader

/-- The verdict strings returned by the three signal tiers
(`"BULLISH"`, `"BEARISH"`, `"NEUTRAL"`, `"BUY"`, `"HOLD"`). -/
inductive Verdict where
  | BULLISH
  | BEARISH
  | NEUTRAL
  | BUY
  | HOLD
deriving DecidableEq, Repr

/-- One OHLCV candle, as stored in the candle DataFrame
(`core/engine.py`, `get_candles_df`). `open` is a Lean keyword, hence `open_`. -/
structure Candle where
  timestamp : Int
  open_ : ℚ
  high : ℚ
  low : ℚ
  close : ℚ
  volume : ℚ
deriving DecidableEq, Repr

/-! ## RiskEngine (`core/risk.py`) -/

/-- `RiskLevel` record from `core/risk.py`. -/
structure RiskLevel where
  level : Int
  max_position_pct : ℚ
  max_daily_loss_pct : ℚ
  description : String
deriving DecidableEq, Repr

/-- The dict literal built by `RiskEngine._define_risk_levels`,
modelled as an association list keyed by the level. -/
def define_risk_levels : List (Int × RiskLevel) :=
  [ (1, ⟨1, 1/100, 5/1000, "Extreme Caution"⟩)
  , (2, ⟨2, 2/100, 10/1000, "Very Conservative"⟩)
  , (3, ⟨3, 3/100, 15/1000, "Conservative"⟩)
  , (4, ⟨4, 5/100, 20/1000, "Moderate-Low"⟩)
  , (5, ⟨5, 7/100, 25/1000, "Moderate"⟩)
  , (6, ⟨6, 10/100, 30/1000, "Moderate-High"⟩)
  , (7, ⟨7, 12/100, 35/1000, "Growth"⟩)
  , (8, ⟨8, 15/100, 40/1000, "Aggressive"⟩)
  , (9, ⟨9, 18/100, 45/1000, "Very Aggressive"⟩)
  , (10, ⟨10, 20/100, 50/1000, "Max Risk"⟩) ]

/-- `RiskEngine` mutable state: `self.current_level`.  The `levels` table is
a constant (`define_risk_levels`), so it is not part of the state. -/
structure RiskEngine where
  current_level : Int
deriving DecidableEq, Repr

/-- `RiskEngine.__init__(initial_level)`: stores the argument unvalidated. -/
def RiskEngine.init (initial_level : Int) : RiskEngine :=
  ⟨initial_level⟩

/-- Lookup in the level dict (`self.levels[...]`, `... in self.levels`). -/
def RiskEngine.levels (n : Int) : Option RiskLevel :=
  define_risk_levels.lookup n

/-- `set_risk_level`: raises `ValueError` if the level is not a key of the
table, otherwise replaces `current_level`. -/
def RiskEngine.set_risk_level (_e : RiskEngine) (level : Int) :
    Except String RiskEngine :=
  match RiskEngine.levels level with
  | none => .error "Invalid risk level. Must be between 1 and 10."
  | some _ => .ok ⟨level⟩

/-- `get_current_params`: `self.levels[self.current_level]`
(`none` models the `KeyError` an out-of-table level would raise). -/
def RiskEngine.get_current_params (e : RiskEngine) : Option RiskLevel :=
  RiskEngine.levels e.current_level

/-- `calculate_position_size`: `account_balance * params.max_position_pct`. -/
def RiskEngine.calculate_position_size (e : RiskEngine)
    (account_balance : ℚ) : Option ℚ :=
  e.get_current_params.map (fun p => account_balance * p.max_position_pct)

/-- `check_daily_loss`: true iff `current_daily_loss >= balance * max_daily_loss_pct`. -/
def RiskEngine.check_daily_loss (e : RiskEngine)
    (current_daily_loss account_balance : ℚ) : Option Bool :=
  e.get_current_params.map
    (fun p => decide (account_balance * p.max_daily_loss_pct ≤ current_daily_loss))

/-- `dynamic_adjustment(drawdown_pct)`: if the drawdown exceeds 5%, lower the
level by one (floored at 1) through `set_risk_level`; otherwise do nothing
(the `elif drawdown_pct < 0.01` branch is `pass`). -/
def RiskEngine.dynamic_adjustment (e : RiskEngine) (drawdown_pct : ℚ) :
    Except String RiskEngine :=
  if 5/100 < drawdown_pct then
    let new_level := max 1 (e.current_level - 1)
    if new_level ≠ e.current_level then e.set_risk_level new_level
    else .ok e
  else .ok e

/-- The spec's RiskEngine state invariant: `current_level ∈ [1,10]`. -/
def RiskEngine.inv (e : RiskEngine) : Prop :=
  1 ≤ e.current_level ∧ e.current_level ≤ 10

instance (e : RiskEngine) : Decidable e.inv := by
  unfold RiskEngine.inv
  infer_instance

/-! ### Lemmas about the level table -/

lemma levels_eq_none (n : Int) (h : n < 1 ∨ 10 < n) :
    RiskEngine.levels n = none := by
  have h1 : (n == (1 : Int)) = false := by simp; omega
  have h2 : (n == (2 : Int)) = false := by simp; omega
  have h3 : (n == (3 : Int)) = false := by simp; omega
  have h4 : (n == (4 : Int)) = false := by simp; omega
  have h5 : (n == (5 : Int)) = false := by simp; omega
  have h6 : (n == (6 : Int)) = false := by simp; omega
  have h7 : (n == (7 : Int)) = false := by simp; omega
  have h8 : (n == (8 : Int)) = false := by simp; omega
  have h9 : (n == (9 : Int)) = false := by simp; omega
  have h10 : (n == (10 : Int)) = false := by simp; omega
  simp [RiskEngine.levels, define_risk_levels, List.lookup,
    h1, h2, h3, h4, h5, h6, h7, h8, h9, h10]

lemma levels_eq_some (n : Int) (h1 : 1 ≤ n) (h2 : n ≤ 10) :
    ∃ r : RiskLevel, RiskEngine.levels n = some r ∧ r.level = n := by
  interval_cases n <;> exact ⟨_, rfl, rfl⟩

lemma levels_isSome_iff (n : Int) :
    (RiskEngine.levels n).isSome ↔ (1 ≤ n ∧ n ≤ 10) := by
  constructor
  · intro h
    by_contra hc
    rw [levels_eq_none n (by omega)] at h
    simp at h
  · rintro ⟨h1, h2⟩
    obtain ⟨r, hr, -⟩ := levels_eq_some n h1 h2
    simp [hr]

/-- Under the level invariant, `dynamic_adjustment` always succeeds and its
result is determined by whether the drawdown exceeds 5%. -/
lemma dynamic_adjustment_eq_ite (e : RiskEngine) (d : ℚ) (h : e.inv) :
    e.dynamic_adjustment d =
      if 5/100 < d then .ok (RiskEngine.mk (max 1 (e.current_level - 1)))
      else .ok e := by
  rcases h with ⟨h1, h2⟩
  unfold RiskEngine.dynamic_adjustment
  by_cases hd : 5/100 < d
  · rw [if_pos hd, if_pos hd]
    simp only
    by_cases hne : max 1 (e.current_level - 1) ≠ e.current_level
    · rw [if_pos hne]
      unfold RiskEngine.set_risk_level
      obtain ⟨r, hr, -⟩ := levels_eq_some (max 1 (e.current_level - 1))
        (le_max_left _ _) (by omega)
      rw [hr]
    · rw [if_neg hne]
      push_neg at hne
      rw [hne]
  · rw [if_neg hd, if_neg hd]

/-! ### Claims about RiskEngine -/

/-- **C4 counterexample**: `RiskEngine(initial_level=0)` stores level `0`,
so the invariant `current_level ∈ [1,10]` does not hold after construction
with an arbitrary `initial_level` argument — `__init__` performs no
validation. -/
theorem riskengine_init_unvalidated :
    (RiskEngine.init 0).current_level = 0 ∧ ¬ (RiskEngine.init 0).inv := by
  constructor
  · rfl
  · decide

/-- **C4 (amended)**: `current_level ∈ [1,10]` holds after construction
whenever the `initial_level` argument is itself in `[1,10]` (the constructor
stores the argument unvalidated), and the invariant is preserved by every
state-changing operation: any successful `set_risk_level` and any successful
`dynamic_adjustment` yield a state satisfying it (the remaining operations
`calculate_position_size`, `check_daily_loss`, `get_current_params` do not
modify the state at all). -/
theorem riskengine_level_invariant :
    (∀ n : Int, 1 ≤ n → n ≤ 10 → (RiskEngine.init n).inv)
    ∧ (∀ (e : RiskEngine) (n : Int) (e' : RiskEngine),
        e.set_risk_level n = .ok e' → e'.inv)
    ∧ (∀ (e : RiskEngine) (d : ℚ), e.inv →
        ∃ e', e.dynamic_adjustment d = .ok e' ∧ e'.inv) := by
  refine ⟨?_, ?_, ?_⟩
  · intro n h1 h2
    exact ⟨h1, h2⟩
  · intro e n e' h
    unfold RiskEngine.set_risk_level at h
    rcases hl : RiskEngine.levels n with - | r
    · rw [hl] at h
      exact absurd h (by simp)
    · rw [hl] at h
      have hn : 1 ≤ n ∧ n ≤ 10 := (levels_isSome_iff n).mp (by simp [hl])
      simp only [Except.ok.injEq] at h
      subst h
      exact hn
  · intro e d hinv
    rw [dynamic_adjustment_eq_ite e d hinv]
    rcases hinv with ⟨h1, h2⟩
    by_cases hd : 5/100 < d
    · rw [if_pos hd]
      refine ⟨_, rfl, le_max_left _ _, ?_⟩
      show max 1 (e.current_level - 1) ≤ 10
      omega
    · rw [if_neg hd]
      exact ⟨e, rfl, h1, h2⟩

/-- **C4 witness**: the amended invariant theorem applied at level 5,
a `set_risk_level 8` transition, and a 10% drawdown adjustment. -/
theorem riskengine_level_invariant_witness :
    (RiskEngine.init 5).inv
    ∧ (RiskEngine.mk 8).inv
    ∧ (∃ e', (RiskEngine.mk 5).dynamic_adjustment (1/10) = .ok e' ∧ e'.inv) :=
  ⟨riskengine_level_invariant.1 5 (by decide) (by decide),
   riskengine_level_invariant.2.1 (RiskEngine.init 5) 8 (RiskEngine.mk 8) rfl,
   riskengine_level_invariant.2.2 (RiskEngine.mk 5) (1/10) (by decide)⟩

/-- **C9**: for any engine satisfying the level invariant,
`dynamic_adjustment d` with `d > 0.05` succeeds and replaces the level with
`max 1 (current_level - 1)` (in particular level 1 stays 1), and with
`d ≤ 0.05` it succeeds leaving the state unchanged; the level is never
increased. -/
theorem dynamic_adjustment_spec (e : RiskEngine) (d : ℚ) (h : e.inv) :
    (5/100 < d →
      e.dynamic_adjustment d = .ok (RiskEngine.mk (max 1 (e.current_level - 1))))
    ∧ (d ≤ 5/100 → e.dynamic_adjustment d = .ok e)
    ∧ (∀ e', e.dynamic_adjustment d = .ok e' →
        e'.current_level ≤ e.current_level) := by
  have hkey := dynamic_adjustment_eq_ite e d h
  rcases h with ⟨h1, h2⟩
  refine ⟨?_, ?_, ?_⟩
  · intro hd
    rw [hkey, if_pos hd]
  · intro hd
    rw [hkey, if_neg (not_lt.mpr hd)]
  · intro e' he'
    rw [hkey] at he'
    by_cases hd : 5/100 < d
    · rw [if_pos hd] at he'
      simp only [Except.ok.injEq] at he'
      subst he'
      simp only [RiskEngine.mk.injEq]
      omega
    · rw [if_neg hd] at he'
      simp only [Except.ok.injEq] at he'
      subst he'
      exact le_refl _

/-- **C9 witness**: the adjustment theorem at level 5, with drawdown 10%
(level drops to 4) and drawdown 2% (state unchanged). -/
theorem dynamic_adjustment_spec_witness :
    ((5:ℚ)/100 < 1/10 →
      (RiskEngine.mk 5).dynamic_adjustment (1/10) = .ok (RiskEngine.mk (max 1 (5 - 1))))
    ∧ ((1:ℚ)/10 ≤ 5/100 → (RiskEngine.mk 5).dynamic_adjustment (1/10) = .ok (RiskEngine.mk 5))
    ∧ (∀ e', (RiskEngine.mk 5).dynamic_adjustment (1/10) = .ok e' →
        e'.current_level ≤ (RiskEngine.mk 5).current_level) :=
  dynamic_adjustment_spec (RiskEngine.mk 5) (1/10) (by decide)

/-- **C7**: `set_risk_level n` errors for every integer `n` outside `[1,10]`
(the Except error carries no new state, so `current_level` is unchanged),
and for `n` inside `[1,10]` it succeeds with new level `n`, immediately
observable: `calculate_position_size balance` on the new state returns
`balance * max_position_pct` of level `n`'s table record. -/
theorem set_risk_level_spec (e : RiskEngine) (n : Int) (balance : ℚ) :
    ((n < 1 ∨ 10 < n) →
      e.set_risk_level n = .error "Invalid risk level. Must be between 1 and 10.")
    ∧ (1 ≤ n → n ≤ 10 → ∃ r : RiskLevel,
        RiskEngine.levels n = some r
        ∧ e.set_risk_level n = .ok (RiskEngine.mk n)
        ∧ (RiskEngine.mk n).calculate_position_size balance
            = some (balance * r.max_position_pct)) := by
  constructor
  · intro h
    unfold RiskEngine.set_risk_level
    rw [levels_eq_none n h]
  · intro h1 h2
    obtain ⟨r, hr, -⟩ := levels_eq_some n h1 h2
    refine ⟨r, hr, ?_, ?_⟩
    · unfold RiskEngine.set_risk_level
      rw [hr]
    · unfold RiskEngine.calculate_position_size RiskEngine.get_current_params
      show Option.map _ (RiskEngine.levels n) = _
      rw [hr]
      rfl

/-- **C7 witness**: `set_risk_level` at the out-of-range level 11 and the
in-range level 5, observed through `calculate_position_size 10000`. -/
theorem set_risk_level_spec_witness :
    ((RiskEngine.init 1).set_risk_level 11
        = .error "Invalid risk level. Must be between 1 and 10.")
    ∧ (∃ r : RiskLevel,
        RiskEngine.levels 5 = some r
        ∧ (RiskEngine.init 1).set_risk_level 5 = .ok (RiskEngine.mk 5)
        ∧ (RiskEngine.mk 5).calculate_position_size 10000
            = some (10000 * r.max_position_pct)) :=
  ⟨(set_risk_level_spec (RiskEngine.init 1) 11 10000).1 (by decide),
   (set_risk_level_spec (RiskEngine.init 1) 5 10000).2 (by decide) (by decide)⟩

/-! ## CorrelationGuard (`core/guards.py`) -/

/-- Python's `base, quote = symbol.split('/')`: succeeds exactly when the
split yields two parts, and returns the base part; any other shape raises
(modelled by `none`). -/
def baseOf (symbol : String) : Option String :=
  match symbol.toList.splitOn '/' with
  | [base, _quote] => some (String.mk base)
  | _ => none

/-- One `self.active_positions[base] = self.active_positions.get(base, 0) + 1`
dict update, on the dict modelled as an association list. -/
def bump : List (String × ℕ) → String → List (String × ℕ)
  | [], b => [(b, 1)]
  | (k, v) :: rest, b =>
    if k = b then (k, v + 1) :: rest else (k, v) :: bump rest b

/-- `self.active_positions.get(base, 0)`. -/
def getCount : List (String × ℕ) → String → ℕ
  | [], _ => 0
  | (k, v) :: rest, b => if k = b then v else getCount rest b

/-- The loop body of `CorrelationGuard.update_positions`: fold the open
symbols into a fresh table, failing on a malformed symbol. -/
def update_positions_go : List String → List (String × ℕ) →
    Option (List (String × ℕ))
  | [], acc => some acc
  | s :: rest, acc =>
    match baseOf s with
    | none => none
    | some b => update_positions_go rest (bump acc b)

/-- `CorrelationGuard.update_positions(open_positions)`: rebuilds
`active_positions` from scratch (`self.active_positions = {}` then the loop). -/
def CorrelationGuard.update_positions (open_positions : List String) :
    Option (List (String × ℕ)) :=
  update_positions_go open_positions []

/-- `CorrelationGuard` state: the threshold and the exposure table. -/
structure CorrelationGuard where
  max_trades_per_asset : ℕ
  active_positions : List (String × ℕ)
deriving DecidableEq, Repr

/-- `CorrelationGuard.check(symbol)`: allowed (`true`) iff the base asset's
open count is strictly below the threshold; `none` models the exception on a
malformed symbol. -/
def CorrelationGuard.check (g : CorrelationGuard) (symbol : String) :
    Option Bool :=
  (baseOf symbol).map
    (fun base => decide (getCount g.active_positions base < g.max_trades_per_asset))

/-- The number of open symbols whose base asset is `b`. -/
def countBase (syms : List String) (b : String) : ℕ :=
  (syms.filter (fun s => baseOf s = some b)).length

lemma getCount_bump (tbl : List (String × ℕ)) (b b' : String) :
    getCount (bump tbl b) b' =
      if b = b' then getCount tbl b' + 1 else getCount tbl b' := by
  induction tbl with
  | nil =>
    by_cases h : b = b'
    · simp [bump, getCount, h]
    · simp [bump, getCount, h]
  | cons kv rest ih =>
    obtain ⟨k, v⟩ := kv
    by_cases hk : k = b
    · subst hk
      by_cases h : k = b'
      · simp [bump, getCount, h]
      · simp [bump, getCount, h]
    · by_cases h : k = b'
      · subst h
        have hb : ¬ b = k := fun hh => hk hh.symm
        simp [bump, getCount, hk, hb]
      · simp [bump, getCount, hk, h, ih]

lemma countBase_cons (s : String) (rest : List String) (b : String) :
    countBase (s :: rest) b =
      (if baseOf s = some b then 1 else 0) + countBase rest b := by
  simp only [countBase, List.filter_cons]
  by_cases h : baseOf s = some b
  · simp [h]
    omega
  · simp [h]

lemma update_positions_go_count (syms : List String) :
    ∀ (acc tbl : List (String × ℕ)),
      update_positions_go syms acc = some tbl →
      ∀ b, getCount tbl b = getCount acc b + countBase syms b := by
  induction syms with
  | nil =>
    intro acc tbl h b
    simp only [update_positions_go, Option.some.injEq] at h
    subst h
    simp [countBase]
  | cons s rest ih =>
    intro acc tbl h b
    simp only [update_positions_go] at h
    rcases hs : baseOf s with - | bs
    · rw [hs] at h
      exact Option.noConfusion h
    · rw [hs] at h
      have hrec := ih (bump acc bs) tbl h b
      rw [hrec, getCount_bump, countBase_cons, hs]
      simp only [Option.some.injEq]
      by_cases hb : bs = b
      · simp only [if_pos hb]
        omega
      · simp only [if_neg hb]
        omega

/-- **C8**: after `update_positions(open_symbols)` succeeds with table `tbl`,
`check symbol` returns `false` exactly when the number of open symbols sharing
`symbol`'s base asset has reached the threshold; concretely, with threshold 2
and open positions `["BTC/USDT", "BTC/USDT"]`, `check "BTC/USDT"` is `false`
and `check "ETH/USDT"` is `true`. -/
theorem correlation_guard_check_spec :
    (∀ (t : ℕ) (syms : List String) (tbl : List (String × ℕ)) (sym b : String),
      CorrelationGuard.update_positions syms = some tbl →
      baseOf sym = some b →
      ((CorrelationGuard.mk t tbl).check sym = some false ↔
        t ≤ countBase syms b))
    ∧ (∀ tbl, CorrelationGuard.update_positions ["BTC/USDT", "BTC/USDT"]
          = some tbl →
        (CorrelationGuard.mk 2 tbl).check "BTC/USDT" = some false
        ∧ (CorrelationGuard.mk 2 tbl).check "ETH/USDT" = some true) := by
  constructor
  · intro t syms tbl sym b hupd hbase
    have hcount := update_positions_go_count syms [] tbl hupd b
    have hcount' : getCount tbl b = countBase syms b := by
      simpa [getCount] using hcount
    unfold CorrelationGuard.check
    rw [hbase]
    show some (decide (getCount tbl b < t)) = some false ↔ _
    rw [hcount']
    simp only [Option.some.injEq, decide_eq_false_iff_not, not_lt]
  · intro tbl hupd
    have hconc : CorrelationGuard.update_positions ["BTC/USDT", "BTC/USDT"]
        = some [("BTC", 2)] := by decide
    rw [hconc] at hupd
    have h1 : tbl = [("BTC", 2)] := (Option.some.inj hupd).symm
    subst h1
    constructor
    · decide
    · decide

/-- **C8 witness**: the general `check`/count equivalence applied to the
spec's concrete example (threshold 2, two open BTC positions). -/
theorem correlation_guard_check_spec_witness :
    (CorrelationGuard.update_positions ["BTC/USDT", "BTC/USDT"]
        = some [("BTC", 2)])
    ∧ (baseOf "BTC/USDT" = some "BTC")
    ∧ ((CorrelationGuard.mk 2 [("BTC", 2)]).check "BTC/USDT" = some false ↔
        2 ≤ countBase ["BTC/USDT", "BTC/USDT"] "BTC") :=
  ⟨by decide, by decide,
   correlation_guard_check_spec.1 2 ["BTC/USDT", "BTC/USDT"] [("BTC", 2)]
     "BTC/USDT" "BTC" (by decide) (by decide)⟩

/-! ## SignalPackager (`core/signals.py`) -/

/-- The raw trade dict passed to `SignalPackager.package_trade`; a missing
dict key is `none`. -/
structure TradeData where
  symbol : Option String
  side : Option String
  entry_price : Option ℚ
  sl : Option ℚ
  tp : Option ℚ
  size : Option ℚ
  level : Option Int
  slevel : Option Int
  strategy_verdict : Option String
  agent_verdict : Option String
deriving DecidableEq, Repr

/-- `packet["meta"]`. -/
structure PacketMeta where
  timestamp : String
  version : String
  source : String
deriving DecidableEq, Repr

/-- `packet["trade"]["risk"]`. -/
structure RiskInfo where
  level : Int
  slevel : Int
deriving DecidableEq, Repr

/-- `packet["trade"]`. -/
structure TradeInfo where
  symbol : String
  side : String
  entry : ℚ
  sl : ℚ
  tp : ℚ
  size : ℚ
  risk : RiskInfo
deriving DecidableEq, Repr

/-- `packet["context"]`. -/
structure PacketContext where
  strategy : String
  sentiment : String
deriving DecidableEq, Repr

/-- The packaged trade packet. -/
structure TradePacket where
  meta : PacketMeta
  trade : TradeInfo
  context : PacketContext
deriving DecidableEq, Repr

def exceptIsOk {α : Type} : Except String α → Bool
  | .ok _ => true
  | .error _ => false

/-- `SignalPackager.package_trade(data)` (`core/signals.py`).  `now` stands
for `datetime.utcnow().isoformat()`.  Validation order as in the source:
missing required fields (the catch-all match arm), symbol contains `/`,
side in `{BUY, SELL}`, strictly positive prices and size; each failure
raises `ValueError` (`Except.error`). -/
def package_trade (now : String) (data : TradeData) :
    Except String TradePacket :=
  match data.symbol, data.side, data.entry_price, data.sl, data.tp,
      data.size, data.level, data.slevel with
  | some symbol, some side, some entry_price, some sl, some tp, some size,
      some level, some slevel =>
    if (symbol.toList.contains '/') = false then
      .error "Invalid symbol format"
    else if ¬ (side = "BUY" ∨ side = "SELL") then
      .error "Invalid side"
    else if entry_price ≤ 0 ∨ sl ≤ 0 ∨ tp ≤ 0 ∨ size ≤ 0 then
      .error "Price, SL, TP, and Size must be positive."
    else
      .ok { meta := ⟨now, "1.0", "Oracle-AI-Hub"⟩
          , trade := ⟨symbol, side, entry_price, sl, tp, size, ⟨level, slevel⟩⟩
          , context := ⟨data.strategy_verdict.getD "N/A",
              data.agent_verdict.getD "N/A"⟩ }
  | _, _, _, _, _, _, _, _ =>
    .error "Missing required fields for signal package"

/-- `package_trade` together with its audit-log side effect: the packet is
appended (`_log_packet`) only after all validation succeeded, so on failure
the log is returned unchanged. -/
def package_and_log (now : String) (data : TradeData)
    (log : List TradePacket) :
    Except String TradePacket × List TradePacket :=
  match package_trade now data with
  | .ok p => (.ok p, log ++ [p])
  | .error e => (.error e, log)

/-- The sample trade dict from the spec and `core/signals.py.__main__`. -/
def sample_data : TradeData :=
  ⟨some "BTC/USDT", some "BUY", some 50000, some 49000, some 53000,
   some (1/100), some 5, some 0, none, none⟩

/-- `sample_data` with `side = "LONG"`. -/
def sample_data_long : TradeData :=
  ⟨some "BTC/USDT", some "LONG", some 50000, some 49000, some 53000,
   some (1/100), some 5, some 0, none, none⟩

/-- `sample_data` with `size = 0`. -/
def sample_data_zero : TradeData :=
  ⟨some "BTC/USDT", some "BUY", some 50000, some 49000, some 53000,
   some 0, some 5, some 0, none, none⟩

/-- **C3**: whenever packaging fails the audit log is unchanged (no partial
packet is emitted); every input with side `"LONG"` is rejected, and every
input with size `0` is rejected; the literal sample input succeeds and the
resulting packet has `trade.entry = 50000` and `trade.risk.level = 5`. -/
theorem package_trade_validation :
    (∀ (now : String) (data : TradeData) (log : List TradePacket),
      exceptIsOk (package_and_log now data log).1 = false →
      (package_and_log now data log).2 = log)
    ∧ (∀ (now : String) (data : TradeData), data.side = some "LONG" →
        exceptIsOk (package_trade now data) = false)
    ∧ (∀ (now : String) (data : TradeData), data.size = some 0 →
        exceptIsOk (package_trade now data) = false)
    ∧ (∀ now : String, ∃ p : TradePacket,
        package_trade now sample_data = .ok p
        ∧ p.trade.entry = 50000 ∧ p.trade.risk.level = 5) := by
  refine ⟨?_, ?_, ?_, ?_⟩
  · intro now data log h
    unfold package_and_log at *
    rcases hp : package_trade now data with e | p
    · rfl
    · rw [hp] at h
      simp [exceptIsOk] at h
  · intro now data hside
    obtain ⟨sym, sd, ep, slq, tpq, sz, lv, slv, sv, av⟩ := data
    have hsd : sd = some "LONG" := hside
    subst hsd
    rcases sym with - | sym <;> rcases ep with - | ep <;>
      rcases slq with - | slq <;> rcases tpq with - | tpq <;>
      rcases sz with - | sz <;> rcases lv with - | lv <;>
      rcases slv with - | slv <;>
      simp only [package_trade, exceptIsOk] <;>
      split_ifs <;> simp_all [exceptIsOk]
  · intro now data hsz
    obtain ⟨sym, sd, ep, slq, tpq, sz, lv, slv, sv, av⟩ := data
    have hsz' : sz = some 0 := hsz
    subst hsz'
    rcases sym with - | sym <;> rcases sd with - | sd <;>
      rcases ep with - | ep <;> rcases slq with - | slq <;>
      rcases tpq with - | tpq <;> rcases lv with - | lv <;>
      rcases slv with - | slv <;>
      simp only [package_trade, exceptIsOk] <;>
      split_ifs with h1 h2 h3 <;> simp_all [exceptIsOk]
  · intro now
    refine ⟨⟨⟨now, "1.0", "Oracle-AI-Hub"⟩,
      ⟨"BTC/USDT", "BUY", 50000, 49000, 53000, 1/100, ⟨5, 0⟩⟩,
      ⟨"N/A", "N/A"⟩⟩, ?_, rfl, rfl⟩
    simp only [package_trade, sample_data]
    rw [if_neg (by decide), if_neg (by decide), if_neg (by norm_num)]
    rfl

/-- **C3 witness**: the validation theorem applied at the concrete rejected
inputs (`side = "LONG"`, `size = 0`) and at the accepted sample input. -/
theorem package_trade_validation_witness :
    ((package_and_log "t" sample_data_long []).2 = [])
    ∧ (exceptIsOk (package_trade "t" sample_data_long) = false)
    ∧ (exceptIsOk (package_trade "t" sample_data_zero) = false)
    ∧ (∃ p : TradePacket, package_trade "t" sample_data = .ok p
        ∧ p.trade.entry = 50000 ∧ p.trade.risk.level = 5) :=
  ⟨package_trade_validation.1 "t" sample_data_long [] (by decide),
   package_trade_validation.2.1 "t" sample_data_long rfl,
   package_trade_validation.2.2.1 "t" sample_data_zero rfl,
   package_trade_validation.2.2.2 "t"⟩

/-! ## Indicator columns (`pandas_ta` as used by `core/engine.py`)

`pandas_ta.ema` (default `sma=True`, `adjust=False`) seeds the EMA at input
index `n-1` with the SMA of the first `n` inputs and then recurses with
`α = 2/(n+1)`; earlier positions are NaN.  `pandas_ta.macd` is
`EMA12 − EMA26` with the signal line an `EMA9` of the MACD line taken from
its first valid index.  A column is modelled as its list of defined values
plus the number of leading NaN positions. -/

/-- Recursive EMA step: `e_i = α·x_i + (1-α)·e_{i-1}`. -/
def emaRec (alpha : ℚ) : ℚ → List ℚ → List ℚ
  | _, [] => []
  | prev, x :: rest =>
    let e := alpha * x + (1 - alpha) * prev
    e :: emaRec alpha e rest

/-- The defined values of the `EMA_n` column: SMA seed at input index `n-1`,
then the EMA recursion; empty when fewer than `n` inputs exist. -/
def emaVals (n : ℕ) (xs : List ℚ) : List ℚ :=
  if n = 0 ∨ xs.length < n then []
  else
    let seed := (xs.take n).sum / n
    seed :: emaRec (2 / (n + 1)) seed (xs.drop n)

/-- The full `EMA_n` DataFrame column, `none` = NaN during warm-up. -/
def emaCol (n : ℕ) (xs : List ℚ) : List (Option ℚ) :=
  if n = 0 ∨ xs.length < n then xs.map (fun _ => none)
  else List.replicate (n - 1) none ++ (emaVals n xs).map some

/-- The defined values of the `MACD_12_26_9` column (`EMA12 − EMA26`),
defined from input index 25 on; `drop 14` aligns the EMA12 values (defined
from index 11) with the EMA26 values (defined from index 25). -/
def macdVals (xs : List ℚ) : List ℚ :=
  List.zipWith (fun a b => a - b) ((emaVals 12 xs).drop 14) (emaVals 26 xs)

/-- The full `MACD_12_26_9` column. -/
def macdCol (xs : List ℚ) : List (Option ℚ) :=
  if xs.length < 26 then xs.map (fun _ => none)
  else List.replicate 25 none ++ (macdVals xs).map some

/-- The defined values of the `MACDs_12_26_9` signal column: EMA(9) of the
MACD values starting at their first valid index, hence defined from input
index 33 on. -/
def signalVals (xs : List ℚ) : List ℚ :=
  emaVals 9 (macdVals xs)

/-- The full `MACDs_12_26_9` column. -/
def signalCol (xs : List ℚ) : List (Option ℚ) :=
  if xs.length < 34 then xs.map (fun _ => none)
  else List.replicate 33 none ++ (signalVals xs).map some

/-- Last value of pandas `ewm(alpha, adjust=True).mean()` over `xs`:
`Σᵢ (1-α)^i·x_{T-i} / Σᵢ (1-α)^i` via the numerator/denominator recursion. -/
def ewmLast (alpha : ℚ) (xs : List ℚ) : ℚ :=
  let nd := xs.foldl
    (fun (nd : ℚ × ℚ) x => (x + (1 - alpha) * nd.1, 1 + (1 - alpha) * nd.2))
    (0, 0)
  nd.1 / nd.2

/-- Last value of the `RSI_14` column (`pandas_ta.rsi`): Wilder RMA
(`ewm(alpha = 1/n, min_periods = n)`) of the gains and of the losses of the
close-to-close differences; `none` while fewer than `n` differences exist,
and when gains and losses are all zero (0/0 is NaN in pandas). -/
def rsiLast (n : ℕ) (closes : List ℚ) : Option ℚ :=
  let diffs := List.zipWith (fun a b => a - b) (closes.drop 1) closes
  if diffs.length < n then none
  else
    let avg_gain := ewmLast (1 / n) (diffs.map (fun d => max d 0))
    let avg_loss := ewmLast (1 / n) (diffs.map (fun d => max (-d) 0))
    if avg_gain + avg_loss = 0 then none
    else some (100 * avg_gain / (avg_gain + avg_loss))

/-- Value of a DataFrame column at row `i` (`none` = NaN; NaN comparisons in
Python are always false, which the callers below encode by matching). -/
def colAt (l : List (Option ℚ)) (i : ℕ) : Option ℚ :=
  (l.get? i).join

/-! ## SignalEngine tiers (`core/engine.py`) -/

/-- `calculate_trend(df)`: NEUTRAL under 200 candles, else compare the last
close with the last `EMA_200` value (a NaN comparison yields NEUTRAL). -/
def calculate_trend (df : List Candle) : Verdict :=
  if df.length < 200 then .NEUTRAL
  else
    let closes := df.map Candle.close
    match closes.get? (df.length - 1),
        colAt (emaCol 200 closes) (df.length - 1) with
    | some last_close, some last_ema200 =>
      if last_ema200 < last_close then .BULLISH
      else if last_close < last_ema200 then .BEARISH
      else .NEUTRAL
    | _, _ => .NEUTRAL

/-- `calculate_momentum(df)`: NEUTRAL under 14 candles, else compare the
last `RSI_14` value with 50 (a NaN RSI yields NEUTRAL). -/
def calculate_momentum (df : List Candle) : Verdict :=
  if df.length < 14 then .NEUTRAL
  else
    match rsiLast 14 (df.map Candle.close) with
    | some last_rsi =>
      if 50 < last_rsi then .BULLISH
      else if last_rsi < 50 then .BEARISH
      else .NEUTRAL
    | none => .NEUTRAL

/-- `calculate_trigger(df)`: HOLD under 50 candles, else BUY iff the MACD
line crossed above its signal line between the previous and current candle
(`prev_macd ≤ prev_signal` and `curr_macd > curr_signal`) and the current
close is above `EMA_50` (any NaN comparison is false, hence HOLD). -/
def calculate_trigger (df : List Candle) : Verdict :=
  if df.length < 50 then .HOLD
  else
    let closes := df.map Candle.close
    let n := df.length
    match colAt (macdCol closes) (n - 1), colAt (macdCol closes) (n - 2),
        colAt (signalCol closes) (n - 1), colAt (signalCol closes) (n - 2),
        colAt (emaCol 50 closes) (n - 1), closes.get? (n - 1) with
    | some curr_macd, some prev_macd, some curr_signal, some prev_signal,
        some curr_ema50, some curr_close =>
      if (prev_macd ≤ prev_signal ∧ curr_signal < curr_macd)
          ∧ curr_ema50 < curr_close then .BUY
      else .HOLD
    | _, _, _, _, _, _ => .HOLD

/-- The MACD column value of candle `i`, defaulted (the default is never
used at positions the theorems talk about, which are proved defined). -/
def macdAt (df : List Candle) (i : ℕ) : ℚ :=
  (colAt (macdCol (df.map Candle.close)) i).getD 0

/-- The signal-line column value of candle `i`, defaulted. -/
def signalAt (df : List Candle) (i : ℕ) : ℚ :=
  (colAt (signalCol (df.map Candle.close)) i).getD 0

/-- The `EMA_50` column value of candle `i`, defaulted. -/
def ema50At (df : List Candle) (i : ℕ) : ℚ :=
  (colAt (emaCol 50 (df.map Candle.close)) i).getD 0

/-- The close of candle `i`, defaulted. -/
def closeAt (df : List Candle) (i : ℕ) : ℚ :=
  ((df.map Candle.close).get? i).getD 0

/-! ### Definedness of the columns -/

lemma emaRec_length (alpha : ℚ) (xs : List ℚ) :
    ∀ prev, (emaRec alpha prev xs).length = xs.length := by
  induction xs with
  | nil => intro prev; rfl
  | cons x rest ih =>
    intro prev
    simp only [emaRec, List.length_cons, ih]

lemma emaVals_length (n : ℕ) (xs : List ℚ) (h0 : n ≠ 0)
    (h : n ≤ xs.length) :
    (emaVals n xs).length = xs.length - n + 1 := by
  unfold emaVals
  rw [if_neg (by omega)]
  simp only [List.length_cons, emaRec_length, List.length_drop]
  try omega

lemma macdVals_length (xs : List ℚ) (h : 26 ≤ xs.length) :
    (macdVals xs).length = xs.length - 25 := by
  unfold macdVals
  rw [List.length_zipWith, List.length_drop,
    emaVals_length 12 xs (by omega) (by omega),
    emaVals_length 26 xs (by omega) (by omega)]
  omega

lemma signalVals_length (xs : List ℚ) (h : 34 ≤ xs.length) :
    (signalVals xs).length = xs.length - 33 := by
  unfold signalVals
  rw [emaVals_length 9 (macdVals xs) (by omega)
    (by rw [macdVals_length xs (by omega)]; omega),
    macdVals_length xs (by omega)]
  omega

lemma colAt_replicate_append (k : ℕ) (vs : List ℚ) (i : ℕ)
    (h1 : k ≤ i) (h2 : i - k < vs.length) :
    ∃ v, colAt (List.replicate k (none : Option ℚ) ++ vs.map some) i
      = some v := by
  unfold colAt
  rw [List.get?_append_right (by simpa using h1)]
  simp only [List.length_replicate, List.get?_map]
  rcases hv : vs.get? (i - k) with - | v
  · rw [List.get?_eq_none] at hv
    omega
  · exact ⟨v, by simp⟩

lemma emaCol_defined (n : ℕ) (xs : List ℚ) (i : ℕ) (h0 : n ≠ 0)
    (hn : n ≤ xs.length) (h1 : n - 1 ≤ i) (h2 : i < xs.length) :
    ∃ v, colAt (emaCol n xs) i = some v := by
  unfold emaCol
  rw [if_neg (by omega)]
  exact colAt_replicate_append (n - 1) (emaVals n xs) i h1
    (by rw [emaVals_length n xs h0 hn]; omega)

lemma macdCol_defined (xs : List ℚ) (i : ℕ) (hn : 26 ≤ xs.length)
    (h1 : 25 ≤ i) (h2 : i < xs.length) :
    ∃ v, colAt (macdCol xs) i = some v := by
  unfold macdCol
  rw [if_neg (by omega)]
  exact colAt_replicate_append 25 (macdVals xs) i h1
    (by rw [macdVals_length xs hn]; omega)

lemma signalCol_defined (xs : List ℚ) (i : ℕ) (hn : 34 ≤ xs.length)
    (h1 : 33 ≤ i) (h2 : i < xs.length) :
    ∃ v, colAt (signalCol xs) i = some v := by
  unfold signalCol
  rw [if_neg (by omega)]
  exact colAt_replicate_append 33 (signalVals xs) i h1
    (by rw [signalVals_length xs hn]; omega)

/-! ### Claims about the signal tiers -/

/-- **C1**: for every series of at least 50 candles, the trigger tier is BUY
iff the previous candle's MACD is ≤ its signal line, the current candle's
MACD is > its signal line, and the current close is > the current EMA(50);
and the tier only ever returns BUY or HOLD, so if any single condition fails
it returns HOLD. -/
theorem calculate_trigger_iff (df : List Candle) (h : 50 ≤ df.length) :
    (calculate_trigger df = Verdict.BUY ↔
      (macdAt df (df.length - 2) ≤ signalAt df (df.length - 2)
       ∧ signalAt df (df.length - 1) < macdAt df (df.length - 1)
       ∧ ema50At df (df.length - 1) < closeAt df (df.length - 1)))
    ∧ (calculate_trigger df = Verdict.BUY ∨ calculate_trigger df = Verdict.HOLD) := by
  have hlen : (df.map Candle.close).length = df.length := List.length_map df _
  obtain ⟨cm, hcm⟩ := macdCol_defined (df.map Candle.close) (df.length - 1)
    (by omega) (by omega) (by omega)
  obtain ⟨pm, hpm⟩ := macdCol_defined (df.map Candle.close) (df.length - 2)
    (by omega) (by omega) (by omega)
  obtain ⟨cs, hcs⟩ := signalCol_defined (df.map Candle.close) (df.length - 1)
    (by omega) (by omega) (by omega)
  obtain ⟨ps, hps⟩ := signalCol_defined (df.map Candle.close) (df.length - 2)
    (by omega) (by omega) (by omega)
  obtain ⟨ce, hce⟩ := emaCol_defined 50 (df.map Candle.close) (df.length - 1)
    (by omega) (by omega) (by omega) (by omega)
  obtain ⟨cc, hcc⟩ : ∃ v, (df.map Candle.close).get? (df.length - 1) = some v := by
    rcases hv : (df.map Candle.close).get? (df.length - 1) with - | v
    · rw [List.get?_eq_none] at hv
      omega
    · exact ⟨v, rfl⟩
  simp only [calculate_trigger]
  rw [if_neg (by omega)]
  simp only [macdAt, signalAt, ema50At, closeAt,
    hcm, hpm, hcs, hps, hce, hcc, Option.getD_some]
  constructor
  · split_ifs with hcond
    · simp only [true_iff]
      exact ⟨hcond.1.1, hcond.1.2, hcond.2⟩
    · constructor
      · intro hne
        exact absurd hne (by decide)
      · intro hc
        exact absurd ⟨⟨hc.1, hc.2.1⟩, hc.2.2⟩ hcond
  · split_ifs
    · exact Or.inl rfl
    · exact Or.inr rfl

/-- A constant 50-candle series used to instantiate the trigger theorem. -/
def dfC : List Candle :=
  List.replicate 50 ⟨0, 1, 1, 1, 1, 1⟩

/-- **C1 witness**: the trigger theorem applied to a concrete 50-candle
series. -/
theorem calculate_trigger_iff_witness :
    50 ≤ dfC.length
    ∧ (calculate_trigger dfC = Verdict.BUY
        ∨ calculate_trigger dfC = Verdict.HOLD) :=
  ⟨by decide, (calculate_trigger_iff dfC (by decide)).2⟩

/-- **C2**: series shorter than the warm-up window always resolve to the
neutral verdict of their tier: fewer than 200 candles give a NEUTRAL trend,
fewer than 14 a NEUTRAL momentum, fewer than 50 a HOLD trigger; the three
functions are total, so no error is ever raised. -/
theorem short_series_neutral (df : List Candle) :
    (df.length < 200 → calculate_trend df = Verdict.NEUTRAL)
    ∧ (df.length < 14 → calculate_momentum df = Verdict.NEUTRAL)
    ∧ (df.length < 50 → calculate_trigger df = Verdict.HOLD) := by
  refine ⟨?_, ?_, ?_⟩
  · intro h
    unfold calculate_trend
    rw [if_pos h]
  · intro h
    unfold calculate_momentum
    rw [if_pos h]
  · intro h
    unfold calculate_trigger
    rw [if_pos h]

/-- **C2 witness**: the short-series theorem applied to the empty series. -/
theorem short_series_neutral_witness :
    calculate_trend [] = Verdict.NEUTRAL
    ∧ calculate_momentum [] = Verdict.NEUTRAL
    ∧ calculate_trigger [] = Verdict.HOLD :=
  ⟨(short_series_neutral []).1 (by decide),
   (short_series_neutral []).2.1 (by decide),
   (short_series_neutral []).2.2 (by decide)⟩

/-! ## Backtester (`core/backtester.py`) -/

/-- `self.position` dict. -/
structure Position where
  entry_price : ℚ
  size : ℚ
  sl : ℚ
  tp : ℚ
  side : String
  entry_time : Int
deriving DecidableEq, Repr

/-- One entry of `self.trades`. -/
structure TradeRec where
  symbol : String
  entry_time : Int
  exit_time : Int
  entry_price : ℚ
  exit_price : ℚ
  pnl : ℚ
  reason : String
deriving DecidableEq, Repr

/-- The mutable `Backtester` state. -/
structure BState where
  symbol : String
  balance : ℚ
  initial_balance : ℚ
  trades : List TradeRec
  position : Option Position
  equity_curve : List (Int × ℚ)
deriving DecidableEq, Repr

/-- `Backtester.__init__(symbol, start_balance)`. -/
def BState.init (symbol : String) (start_balance : ℚ) : BState :=
  ⟨symbol, start_balance, start_balance, [], none, []⟩

/-- `close_position(price, timestamp, reason)`. -/
def close_position (st : BState) (pos : Position) (price : ℚ)
    (timestamp : Int) (reason : String) : BState :=
  let pnl := (price - pos.entry_price) * pos.size
  { st with
    balance := st.balance + pnl
    trades := st.trades ++
      [⟨st.symbol, pos.entry_time, timestamp, pos.entry_price, price, pnl,
        reason⟩]
    position := none }

/-- The exit decision of `check_exit`: the stop-loss (`low ≤ sl`, exit at
`sl`) is checked before the take-profit (`high ≥ tp`, exit at `tp`). -/
def check_exit_result (pos : Position) (c : Candle) : Option (ℚ × String) :=
  if c.low ≤ pos.sl then some (pos.sl, "SL")
  else if pos.tp ≤ c.high then some (pos.tp, "TP")
  else none

/-- `check_exit(candle)` on a state whose position is `pos`. -/
def check_exit (st : BState) (pos : Position) (c : Candle) : BState :=
  match check_exit_result pos c with
  | some pr => close_position st pos pr.1 c.timestamp pr.2
  | none => st

/-- `open_position(candle)`: SL 2% below the close, TP 6% above, size
risking 2% of the balance against the SL distance, capped so the notional
cost never exceeds the balance; no position if the size ends up ≤ 0. -/
def open_position (st : BState) (c : Candle) : BState :=
  let price := c.close
  let sl := price * (98/100)
  let tp := price * (106/100)
  let dist := price - sl
  let size1 := if 0 < dist then (st.balance * (2/100)) / dist else 0
  let cost := size1 * price
  let size2 := if st.balance < cost then st.balance / price else size1
  if size2 ≤ 0 then st
  else { st with position := some ⟨price, size2, sl, tp, "BUY", c.timestamp⟩ }

/-- One row of the backtest DataFrame: the candle plus its indicator
columns (`none` = NaN). -/
structure Row where
  candle : Candle
  macd : Option ℚ
  signal : Option ℚ
  ema50 : Option ℚ
deriving DecidableEq, Repr

/-- The entry condition of the `run` loop: bullish MACD cross
(`prev_macd ≤ prev_signal` and `macd > signal`) and close above `EMA_50`;
any NaN comparison is false. -/
def entry_cond (prev curr : Row) : Bool :=
  match prev.macd, prev.signal, curr.macd, curr.signal, curr.ema50 with
  | some pm, some ps, some cm, some cs, some ce =>
    decide ((pm ≤ ps ∧ cs < cm) ∧ ce < curr.candle.close)
  | _, _, _, _, _ => false

/-- One iteration of the `run` loop at candle `curr` (with `prev` the row
at index `i-1`): exit check first (only when a position is open), then the
entry check (only when no position is open after the exit check), then the
equity-curve append. -/
def bt_step (st : BState) (prev curr : Row) : BState :=
  let st1 := match st.position with
    | some pos => check_exit st pos curr.candle
    | none => st
  let st2 := match st1.position with
    | none => if entry_cond prev curr then open_position st1 curr.candle else st1
    | some _ => st1
  { st2 with
    equity_curve := st2.equity_curve ++ [(curr.candle.timestamp, st2.balance)] }

/-- The `run` loop over indices `50 ≤ i < len(df)`, folding `bt_step` over
the (previous row, current row) pairs. -/
def bt_run (st : BState) (rows : List Row) : BState :=
  (List.zip (rows.drop 49) (rows.drop 50)).foldl
    (fun s pr => bt_step s pr.1 pr.2) st

/-- The running-peak maximum-drawdown loop of `generate_report`. -/
def drawdown_go : ℚ → ℚ → List (Int × ℚ) → ℚ
  | _, mdd, [] => mdd
  | peak, mdd, (_, equity) :: rest =>
    let peak1 := if peak < equity then equity else peak
    let dd := (peak1 - equity) / peak1 * 100
    let mdd1 := if mdd < dd then dd else mdd
    drawdown_go peak1 mdd1 rest

/-- `generate_report()`, modelled as the dict it returns (an association
list; `trades` is the trade count cast to ℚ).  With zero trades the early
return produces only four keys — no `final_balance`. -/
def generate_report (st : BState) : List (String × ℚ) :=
  if st.trades.length = 0 then
    [("roi", 0), ("win_rate", 0), ("drawdown", 0), ("trades", 0)]
  else
    let total_trades := st.trades.length
    let wins := (st.trades.filter (fun t => 0 < t.pnl)).length
    let win_rate := ((wins : ℚ) / total_trades) * 100
    let total_pnl := st.balance - st.initial_balance
    let roi := (total_pnl / st.initial_balance) * 100
    let max_drawdown := drawdown_go st.initial_balance 0 st.equity_curve
    [("roi", roi), ("win_rate", win_rate), ("drawdown", max_drawdown),
     ("trades", (total_trades : ℚ)), ("final_balance", st.balance)]

/-! ### Lemmas about the backtest step -/

lemma check_exit_result_sl (pos : Position) (c : Candle)
    (h : c.low ≤ pos.sl) :
    check_exit_result pos c = some (pos.sl, "SL") := by
  unfold check_exit_result
  rw [if_pos h]

lemma open_position_trades (s : BState) (c : Candle) :
    (open_position s c).trades = s.trades := by
  unfold open_position
  dsimp only
  split_ifs <;> rfl

lemma open_position_opens (s : BState) (c : Candle) (hs : 0 < s.balance)
    (hc : 0 < c.close) :
    ∃ q : Position, (open_position s c).position = some q
      ∧ q.entry_time = c.timestamp ∧ q.entry_price = c.close := by
  unfold open_position
  dsimp only
  have hdist : (0:ℚ) < c.close - c.close * (98/100) := by nlinarith
  simp only [if_pos hdist]
  by_cases hcap : s.balance < s.balance * (2/100) / (c.close - c.close * (98/100)) * c.close
  · simp only [if_pos hcap]
    rw [if_neg (not_le.mpr (div_pos hs hc))]
    exact ⟨_, rfl, rfl, rfl⟩
  · simp only [if_neg hcap]
    rw [if_neg (not_le.mpr (div_pos (mul_pos hs (by norm_num)) hdist))]
    exact ⟨_, rfl, rfl, rfl⟩

/-! ### Claims about the Backtester -/

/-- **C5 counterexample**: a completed run with zero trades (here the
freshly initialised state, exactly what `run` reports when no entry ever
fires) yields a report without the `final_balance` key — the zero-trade
early return of `generate_report` emits only `roi`, `win_rate`, `drawdown`
and `trades`. -/
theorem generate_report_zero_trades_missing_final_balance :
    (generate_report (BState.init "BTC/USDT" 100)).lookup "final_balance"
      = none
    ∧ (generate_report (BState.init "BTC/USDT" 100)).map Prod.fst
      = ["roi", "win_rate", "drawdown", "trades"] := by
  constructor <;> rfl

/-- **C5 (amended)**: for every completed run with at least one trade the
report carries exactly the five keys `roi`, `win_rate`, `drawdown`,
`trades`, `final_balance`, with `final_balance` equal to the ending
balance; a run with zero trades returns only the first four keys (all
zero), omitting `final_balance`. -/
theorem generate_report_fields (st : BState) :
    (st.trades ≠ [] →
      (generate_report st).lookup "final_balance" = some st.balance
      ∧ (generate_report st).map Prod.fst
          = ["roi", "win_rate", "drawdown", "trades", "final_balance"])
    ∧ (st.trades = [] →
      (generate_report st).map Prod.fst
          = ["roi", "win_rate", "drawdown", "trades"]) := by
  constructor
  · intro h
    have hlen : ¬ st.trades.length = 0 := by simpa using h
    unfold generate_report
    rw [if_neg hlen]
    constructor
    · simp [List.lookup]
    · rfl
  · intro h
    unfold generate_report
    rw [if_pos (by simp [h])]
    rfl

/-- **C5 witness**: the amended report theorem at a state with one recorded
trade and at the zero-trade initial state. -/
theorem generate_report_fields_witness :
    ((generate_report
        (BState.mk "BTC/USDT" 110 100
          [⟨"BTC/USDT", 0, 1, 100, 110, 10, "TP"⟩] none
          [(0, 100), (1, 110)])).lookup "final_balance"
      = some (BState.mk "BTC/USDT" 110 100
          [⟨"BTC/USDT", 0, 1, 100, 110, 10, "TP"⟩] none
          [(0, 100), (1, 110)]).balance
      ∧ (generate_report
          (BState.mk "BTC/USDT" 110 100
            [⟨"BTC/USDT", 0, 1, 100, 110, 10, "TP"⟩] none
            [(0, 100), (1, 110)])).map Prod.fst
        = ["roi", "win_rate", "drawdown", "trades", "final_balance"])
    ∧ (generate_report (BState.init "ETH/USDT" 100)).map Prod.fst
        = ["roi", "win_rate", "drawdown", "trades"] :=
  ⟨(generate_report_fields _).1 (by decide),
   (generate_report_fields (BState.init "ETH/USDT" 100)).2 rfl⟩

/-- **C6**: the stop-loss check precedes the take-profit check, so whenever
the candle's low touches the stop (in particular when the high also touches
the take-profit) the exit is at `sl` with reason `"SL"`; and in a `bt_step`
with an open position whose stop is touched, the exit is recorded before
any entry logic runs: the step's trade list is the old list plus exactly
the SL close record (the subsequent entry branch never appends trades). -/
theorem exit_before_entry_sl_priority :
    (∀ (pos : Position) (c : Candle),
      c.low ≤ pos.sl → pos.tp ≤ c.high →
      check_exit_result pos c = some (pos.sl, "SL"))
    ∧ (∀ (st : BState) (prev curr : Row) (pos : Position),
        st.position = some pos → curr.candle.low ≤ pos.sl →
        (bt_step st prev curr).trades
          = st.trades ++ [⟨st.symbol, pos.entry_time, curr.candle.timestamp,
              pos.entry_price, pos.sl,
              (pos.sl - pos.entry_price) * pos.size, "SL"⟩]) := by
  constructor
  · intro pos c hsl _htp
    exact check_exit_result_sl pos c hsl
  · intro st prev curr pos hpos hsl
    unfold bt_step
    rw [hpos]
    dsimp only
    unfold check_exit
    rw [check_exit_result_sl pos curr.candle hsl]
    unfold close_position
    dsimp only
    split_ifs with he
    · rw [open_position_trades]
    · rfl

/-- **C6 witness**: the SL-priority theorem at a candle touching both the
stop-loss and the take-profit, and a step at a state holding that
position. -/
theorem exit_before_entry_sl_priority_witness :
    (check_exit_result ⟨100, 1, 98, 106, "BUY", 0⟩ ⟨5, 100, 107, 97, 100, 1⟩
      = some ((98:ℚ), "SL"))
    ∧ ((bt_step
        (BState.mk "BTC/USDT" 100 100 [] (some ⟨100, 1, 98, 106, "BUY", 0⟩) [])
        ⟨⟨4, 100, 101, 99, 100, 1⟩, none, none, none⟩
        ⟨⟨5, 100, 107, 97, 100, 1⟩, none, none, none⟩).trades
      = [] ++ [⟨"BTC/USDT", 0, 5, 100, 98, ((98:ℚ) - 100) * 1, "SL"⟩]) :=
  ⟨exit_before_entry_sl_priority.1 ⟨100, 1, 98, 106, "BUY", 0⟩
      ⟨5, 100, 107, 97, 100, 1⟩ (by decide) (by decide),
   exit_before_entry_sl_priority.2
      (BState.mk "BTC/USDT" 100 100 [] (some ⟨100, 1, 98, 106, "BUY", 0⟩) [])
      ⟨⟨4, 100, 101, 99, 100, 1⟩, none, none, none⟩
      ⟨⟨5, 100, 107, 97, 100, 1⟩, none, none, none⟩
      ⟨100, 1, 98, 106, "BUY", 0⟩ rfl (by decide)⟩

/-- **C10**: an exit does not suppress same-bar re-entry.  In a `bt_step`
whose open position exits via the stop-loss on the current candle, if the
bullish-cross-and-above-EMA50 entry condition also holds on that candle
(and the post-exit balance and the close are positive, as they are
throughout a real run), then a new position is opened on the same candle,
with `entry_time` the current candle's timestamp; the state type's single
`Option Position` field means at most one position is ever open. -/
theorem same_bar_reentry (st : BState) (prev curr : Row) (pos : Position)
    (hpos : st.position = some pos)
    (hsl : curr.candle.low ≤ pos.sl)
    (hentry : entry_cond prev curr = true)
    (hbal : 0 < st.balance + (pos.sl - pos.entry_price) * pos.size)
    (hclose : 0 < curr.candle.close) :
    ∃ newPos : Position,
      (bt_step st prev curr).position = some newPos
      ∧ newPos.entry_time = curr.candle.timestamp
      ∧ newPos.entry_price = curr.candle.close := by
  unfold bt_step
  rw [hpos]
  dsimp only
  unfold check_exit
  rw [check_exit_result_sl pos curr.candle hsl]
  unfold close_position
  dsimp only
  rw [if_pos hentry]
  obtain ⟨q, hq, hqt, hqe⟩ := open_position_opens
    { st with
      balance := st.balance + (pos.sl - pos.entry_price) * pos.size
      trades := st.trades ++ [⟨st.symbol, pos.entry_time,
        curr.candle.timestamp, pos.entry_price, pos.sl,
        (pos.sl - pos.entry_price) * pos.size, "SL"⟩]
      position := none }
    curr.candle hbal hclose
  exact ⟨q, hq, hqt, hqe⟩

/-- **C10 witness**: the same-bar re-entry theorem at a concrete step: the
stop at 98 is touched (low 97) and the entry condition holds on the same
candle (`prev` MACD 0 ≤ signal 1, `curr` MACD 2 > signal 1, close 100 >
EMA50 50). -/
theorem same_bar_reentry_witness :
    ∃ newPos : Position,
      (bt_step
        (BState.mk "BTC/USDT" 100 100 [] (some ⟨98, 1, 98, 106, "BUY", 0⟩) [])
        ⟨⟨4, 100, 101, 99, 100, 1⟩, some 0, some 1, some 40⟩
        ⟨⟨5, 100, 107, 97, 100, 1⟩, some 2, some 1, some 50⟩).position
        = some newPos
      ∧ newPos.entry_time = (5 : Int)
      ∧ newPos.entry_price = (100 : ℚ) :=
  same_bar_reentry
    (BState.mk "BTC/USDT" 100 100 [] (some ⟨98, 1, 98, 106, "BUY", 0⟩) [])
    ⟨⟨4, 100, 101, 99, 100, 1⟩, some 0, some 1, some 40⟩
    ⟨⟨5, 100, 107, 97, 100, 1⟩, some 2, some 1, some 50⟩
    ⟨98, 1, 98, 106, "BUY", 0⟩ rfl (by decide) (by decide)
    (by simp) (by decide)

end PurpleTrader
